import Mathlib

/-!
Verification of the ratelock-auditor repository: a shallow embedding of the
two data-path pipelines (RateSyncPipeline in service-ratesync/ratesync.py and
ConversionEngine in service-conversion/conversionengine.py), together with
theorems settling the frozen claims about them.

Conventions of the embedding:
* Python `Decimal` values are embedded as `Dec`: an integer coefficient `c`
  and an integer base-10 exponent `e`, denoting the value `c * 10 ^ e`.
  Python's default decimal context (precision 28, ROUND_HALF_EVEN) rounds the
  result of `*` and `/` to 28 significant digits; the embedding implements
  exactly that (`round28`, `mulD`, `divD`).  Context limits that can only
  fire far outside the program's data ranges (Emax/Emin overflow, quantize
  overflow past 28 digits) are not modelled.
* Python `str` values are `String`; `.upper()` and `.strip()` are embedded as
  `pyUpper`/`pyStrip` (ASCII case folding and whitespace, which covers every
  string the services handle).  Python string comparison is code-point
  lexicographic order, embedded as the boolean `lexLt` on character lists and
  proved equivalent to Mathlib's `<` on `String`.
* DynamoDB tables are association lists kept in insertion order; `put_item`
  prepends (a later `get_item` sees the newest binding, matching overwrite
  semantics), `get_item` is `lookup`, and `scan` returns the stored sequence
  (`scan(Limit=50)` returns its first 50 items).
* Wall-clock timestamps, generated transaction ids and the success of a
  DynamoDB put are inputs of the model (they are environmental effects).
-/

namespace RateLock

/-! ## String helpers: Python `.upper()`, `.strip()`, and `str` comparison -/

/-- Python `str.upper()` for the ASCII strings handled by the services. -/
def pyUpper (s : String) : String := ⟨s.data.map Char.toUpper⟩

/-- Characters removed by Python `str.strip()` (ASCII whitespace). -/
def isWs (c : Char) : Bool := c.isWhitespace

/-- Python `str.strip()` on the underlying character list: drop whitespace
from the front, then from the back. -/
def stripList (l : List Char) : List Char :=
  (((l.dropWhile isWs).reverse.dropWhile isWs)).reverse

/-- Python `str.strip()`. -/
def pyStrip (s : String) : String := ⟨stripList s.data⟩

/-- Python string `<`: code-point lexicographic comparison, as an executable
boolean on character lists. -/
def lexLt : List Char → List Char → Bool
  | [], [] => false
  | [], _ :: _ => true
  | _ :: _, [] => false
  | a :: as, b :: bs => if a < b then true else if b < a then false else lexLt as bs

/-- Boolean Python `<` on strings. -/
def strLtB (a b : String) : Bool := lexLt a.data b.data

/-! ## Digit and bit lengths (structural, fuel-indexed so that the kernel can
evaluate them on literals) -/

def digLenAux : ℕ → ℕ → ℕ
  | 0, _ => 0
  | f+1, n => if n < 10 then 1 else digLenAux f (n / 10) + 1

/-- Number of decimal digits of `n` (0 for 0). -/
def digLen (n : ℕ) : ℕ := if n = 0 then 0 else digLenAux n n

def bitLenAux : ℕ → ℕ → ℕ
  | 0, _ => 0
  | f+1, n => if n = 0 then 0 else bitLenAux f (n / 2) + 1

/-- Number of binary digits of `n` (0 for 0). -/
def bitLen (n : ℕ) : ℕ := bitLenAux n n

/-! ## Decimal numbers

`Dec c e` denotes the Python `Decimal` with numeric value `c * 10 ^ e`.
The embedding tracks values, not representations: Python's "ideal exponent"
padding of exact results only changes trailing zeros of the coefficient and
never affects any value computed or stored by the services. -/

structure Dec where
  c : ℤ
  e : ℤ
  deriving DecidableEq, Repr

/-- Sign of a coefficient (`1` for nonnegative, `-1` for negative). -/
def intSign (c : ℤ) : ℤ := if c < 0 then -1 else 1

/-- Value equality of two decimals: compare after scaling both coefficients
to the smaller exponent. -/
def decEqv (a b : Dec) : Prop :=
  a.c * 10 ^ ((a.e - min a.e b.e).toNat) = b.c * 10 ^ ((b.e - min a.e b.e).toNat)

instance (a b : Dec) : Decidable (decEqv a b) := by unfold decEqv; infer_instance

/-- Boolean strict value order on decimals. -/
def decLtB (a b : Dec) : Bool :=
  a.c * 10 ^ ((a.e - min a.e b.e).toNat) < b.c * 10 ^ ((b.e - min a.e b.e).toNat)

/-- Round a nonnegative integer quotient `t / d` (given remainder `r`) to the
nearest integer, ties to even: the rounding used by the decimal context. -/
def roundHalfEven (q r d : ℕ) : ℕ :=
  if r = 0 then q
  else if 2 * r < d then q
  else if d < 2 * r then q + 1
  else if q % 2 = 0 then q else q + 1

/-- Round a decimal to at most 28 significant digits, half-even: what the
default Python decimal context does to every arithmetic result. -/
def round28 (x : Dec) : Dec :=
  let n := x.c.natAbs
  let L := digLen n
  if L ≤ 28 then x
  else
    let k := L - 28
    let d : ℕ := 10 ^ k
    ⟨intSign x.c * roundHalfEven (n / d) (n % d) d, x.e + k⟩

/-- Python `Decimal.__mul__` under the default context: exact product, then
rounded to 28 significant digits. -/
def mulD (a b : Dec) : Dec := round28 ⟨a.c * b.c, a.e + b.e⟩

/-- Python `Decimal.__truediv__` under the default context: the exact
quotient correctly rounded (half-even) to 28 significant digits.  The
quotient is computed at the scale `s` that puts the integer quotient in
`[10^27, 10^29)`, rescaling once when it lands in `[10^28, 10^29)`.
Division by zero raises in Python and is never reached by the claims; the
embedding returns 0 there. -/
def divD (a b : Dec) : Dec :=
  if a.c = 0 ∨ b.c = 0 then ⟨0, 0⟩ else
  let N := a.c.natAbs
  let D := b.c.natAbs
  let sg := intSign a.c * intSign b.c
  let s0 : ℤ := 28 - (digLen N : ℤ) + (digLen D : ℤ)
  let t0 := N * 10 ^ (s0.toNat)
  let d0 := D * 10 ^ ((-s0).toNat)
  if t0 / d0 < 10 ^ 28 then
    ⟨sg * roundHalfEven (t0 / d0) (t0 % d0) d0, a.e - b.e - s0⟩
  else
    let s1 := s0 - 1
    let t1 := N * 10 ^ (s1.toNat)
    let d1 := D * 10 ^ ((-s1).toNat)
    ⟨sg * roundHalfEven (t1 / d1) (t1 % d1) d1, a.e - b.e - s1⟩

/-- `Decimal.quantize(Decimal('0.01'), rounding=ROUND_HALF_UP)`: round the
value to 2 decimal places, ties away from zero. -/
def quantize2HU (x : Dec) : Dec :=
  let e2 := x.e + 2
  if 0 ≤ e2 then ⟨x.c * 10 ^ (e2.toNat), -2⟩
  else
    let d : ℕ := 10 ^ ((-e2).toNat)
    ⟨intSign x.c * ((x.c.natAbs + d / 2) / d), -2⟩

/-! ## Binary floating point

`float(decimal)` converts exactly-represented decimals to the nearest IEEE
binary64 value (round to nearest, ties to even).  Every binary64 value is
`m * 2 ^ p` and hence again exactly a decimal (`m * 5 ^ -p * 10 ^ p` for
`p < 0`), so the conversion is embedded as `toFloat64 : Dec → Dec`.
Subnormal and overflow ranges are far outside the service's data and are not
modelled. -/

/-- Is `n * 10 ^ ne < 2 ^ j`, for a positive coefficient `n`? -/
def ltPow2 (n : ℕ) (ne : ℤ) (j : ℤ) : Bool :=
  if 0 ≤ ne then
    if 0 ≤ j then n * 10 ^ ne.toNat < 2 ^ j.toNat
    else n * 10 ^ ne.toNat * 2 ^ ((-j).toNat) < 1
  else
    if 0 ≤ j then n < 2 ^ j.toNat * 10 ^ ((-ne).toNat)
    else n * 2 ^ ((-j).toNat) < 10 ^ ((-ne).toNat)

/-- `float()` of the decimal value `x`: round to the nearest binary64
(53-bit significand, ties to even), returned as the exact decimal value of
that binary64. -/
def toFloat64 (x : Dec) : Dec :=
  if x.c = 0 then ⟨0, 0⟩ else
  let n := x.c.natAbs
  -- least E with |x| < 2 ^ E, located via bit lengths then one comparison
  let E0 : ℤ :=
    if 0 ≤ x.e then (bitLen (n * 10 ^ x.e.toNat) : ℤ)
    else (bitLen n : ℤ) - (bitLen (10 ^ ((-x.e).toNat)) : ℤ)
  let E : ℤ := if ltPow2 n x.e E0 then E0 else E0 + 1
  -- significand: |x| * 2 ^ (53 - E) rounded to the nearest integer, half-even
  let p : ℤ := 53 - E
  let t := n * 2 ^ (p.toNat) * 10 ^ (x.e.toNat)
  let d := 2 ^ ((-p).toNat) * 10 ^ ((-x.e).toNat)
  let m := roundHalfEven (t / d) (t % d) d
  let q : ℤ := E - 53
  if 0 ≤ q then ⟨intSign x.c * m * 2 ^ q.toNat, 0⟩
  else ⟨intSign x.c * m * 5 ^ ((-q).toNat), q⟩

/-! ## ConversionEngine service (service-conversion/conversionengine.py)

The DynamoDB rate-cache table is a `List SnapItem` in storage order; the
audit-log table is a `List (String × AuditRecord)` where `put_item` prepends.
Request-independent effects (whether the audit put succeeds, the generated
transaction id, the wall-clock ISO timestamps) enter through `ConvEnv`. -/

/-- A rate-cache item as read by the conversion service (`RateSnapshotID`,
`BaseCurrency`, `FetchDate`, `Rates`).  Rates are the `Decimal` values boto3
returns for stored numbers. -/
structure SnapItem where
  id : String
  base : String
  date : Option String
  rates : List (String × Dec)
  deriving DecidableEq, Repr

/-- Python `max(items, key=lambda x: x['RateSnapshotID'])`: keep the current
maximum, replacing it only on a strictly greater key, so the first maximum
wins ties. -/
def pickLatest : SnapItem → List SnapItem → SnapItem
  | best, [] => best
  | best, x :: xs => pickLatest (if strLtB best.id x.id then x else best) xs

/-- `get_latest_rate_snapshot`: scan the table with `Limit=50` (the first 50
stored items — the code never paginates), take the item with the greatest
snapshot id among them, and drop it if its `Rates` field is missing/empty. -/
def get_latest_rate_snapshot (store : List SnapItem) : Option SnapItem :=
  match store.take 50 with
  | [] => none
  | h :: t =>
    let latest := pickLatest h t
    if latest.rates.isEmpty then none else some latest

/-- `rates.get(code, 1.0)`: association-list lookup with the default
`Decimal(str(1.0)) = Decimal('1.0')`. -/
def ratesGet (rates : List (String × Dec)) (code : String) : Dec :=
  (rates.lookup code).getD ⟨10, -1⟩

/-- `calculate_conversion`: EUR-pivot triangulation under the default
decimal context, final result quantized to 2 places half-up (the
same-currency branch returns the amount unquantized).  Returns
`(converted_amount, calculation_method)`. -/
def calculate_conversion (fc tc : String) (amount : Dec)
    (rates : List (String × Dec)) : Dec × String :=
  let fU := pyUpper fc
  let tU := pyUpper tc
  if fU = tU then (amount, "same_currency")
  else
    let fromRate := ratesGet rates fU
    let toRate := ratesGet rates tU
    let p : Dec × String :=
      if fU = "EUR" then (mulD amount toRate, "eur_to_target")
      else if tU = "EUR" then (divD amount fromRate, "source_to_eur")
      else (mulD (divD amount fromRate) toRate, "triangulation")
    (quantize2HU p.1, p.2)

/-- An audit-log item (`create_audit_log`'s `audit_record`).  `origAmt` and
`convAmt` carry the exact decimal values whose `str()` the code stores. -/
structure AuditRecord where
  txn : String
  fromC : String
  toC : String
  origAmt : Dec
  convAmt : Dec
  snapId : String
  ts : String
  method : String
  ratesUsed : List (String × Dec)
  deriving DecidableEq, Repr

/-- Environmental inputs of one `perform_conversion` call. -/
structure ConvEnv where
  rateStore : List SnapItem
  auditOk : Bool
  txnId : String
  nowIso : String
  nowIso2 : String
  deriving Repr

/-- `create_audit_log`: build the immutable audit record and put it; returns
whether the put succeeded, and the updated audit table. -/
def create_audit_log (env : ConvEnv) (txn fc tc : String) (orig conv : Dec)
    (snapId method : String) (rates : List (String × Dec))
    (audit : List (String × AuditRecord)) : Bool × List (String × AuditRecord) :=
  let record : AuditRecord :=
    { txn := txn
      fromC := pyUpper fc
      toC := pyUpper tc
      origAmt := orig
      convAmt := conv
      snapId := snapId
      ts := env.nowIso
      method := method
      ratesUsed := [(pyUpper fc, ratesGet rates (pyUpper fc)),
                    (pyUpper tc, ratesGet rates (pyUpper tc))] }
  if env.auditOk then (true, (txn, record) :: audit) else (false, audit)

/-- Outcome of `perform_conversion`: either an error payload with its status
code, or the success payload.  In the success payload `convertedAmount` and
`origAmount` are the `float()` conversions the code performs when building
the response dict. -/
inductive ConvResult where
  | err (msg : String) (code : ℕ)
  | ok (convertedAmount : Dec) (snapId : String) (txn : String)
       (fromC : String) (toC : String) (origAmount : Dec) (ts : String)
  deriving DecidableEq, Repr

/-- `perform_conversion`.  `amountRaw` is the query-string amount and
`amount` the result of `Decimal(amountRaw)` (`none` when parsing raises; the
exotic parse `Decimal('NaN')` is outside the model).  Returns the result
payload and the audit table after the call. -/
def perform_conversion (env : ConvEnv) (audit : List (String × AuditRecord))
    (fc tc amountRaw : String) (amount : Option Dec) :
    ConvResult × List (String × AuditRecord) :=
  match amount with
  | none =>
      (.err ("Invalid amount: " ++ amountRaw ++ ". Must be a positive number.") 400, audit)
  | some a =>
    if a.c ≤ 0 ∨ decLtB ⟨1000000000, 0⟩ a then
      (.err ("Invalid amount: " ++ amountRaw ++ ". Must be a positive number.") 400, audit)
    else if fc = "" ∨ tc = "" then
      (.err "Missing currency codes" 400, audit)
    else if (pyStrip (pyUpper fc)).length ≠ 3 ∨ (pyStrip (pyUpper tc)).length ≠ 3 then
      (.err "Currency codes must be 3 characters" 400, audit)
    else
      match get_latest_rate_snapshot env.rateStore with
      | none => (.err "No exchange rates available" 503, audit)
      | some snap =>
        let rates := snap.rates
        -- the code rebinds from_currency_upper/to_currency_upper here
        -- WITHOUT strip(); the membership checks below use these
        let fU := pyUpper fc
        let tU := pyUpper tc
        if fU ≠ "EUR" ∧ (rates.lookup fU).isNone then
          (.err ("Currency not supported: " ++ fU) 400, audit)
        else if tU ≠ "EUR" ∧ (rates.lookup tU).isNone then
          (.err ("Currency not supported: " ++ tU) 400, audit)
        else
          let txn := env.txnId
          let cm := calculate_conversion fc tc a rates
          let al := create_audit_log env txn fc tc a cm.1 snap.id cm.2 rates audit
          if al.1 = false then
            (.err "Audit logging failed" 500, al.2)
          else
            (.ok (toFloat64 cm.1) snap.id txn fU tU (toFloat64 a) env.nowIso2, al.2)

/-- `get_audit_record`: `get_item` on the audit table. -/
def get_audit_record (audit : List (String × AuditRecord)) (txn : String) :
    Option AuditRecord :=
  audit.lookup txn

/-! ## RateSync service (service-ratesync/ratesync.py) -/

/-- A UTC instant at the resolution `datetime` carries. -/
structure Timestamp where
  year : ℕ
  month : ℕ
  day : ℕ
  hour : ℕ
  minute : ℕ
  second : ℕ
  micro : ℕ
  deriving DecidableEq, Repr

/-- `'0'`-padded fixed-width decimal rendering, most significant digit
first: the output of `strftime`'s `%Y`/`%m`/`%d`/`%H`/`%M`/`%f` fields. -/
def padDigits : ℕ → ℕ → List Char
  | 0, _ => []
  | w+1, n => Char.ofNat (48 + n / 10 ^ w) :: padDigits w (n % 10 ^ w)

/-- `generate_snapshot_id`: `now.strftime("%Y%m%d-%H%M%fUTC")` — year,
month, day, a dash, hour, minute, then microseconds and `"UTC"`.  (The
format has no `%S`: seconds are not part of the id.) -/
def generate_snapshot_id (t : Timestamp) : String :=
  ⟨padDigits 4 t.year ++ padDigits 2 t.month ++ padDigits 2 t.day ++
   '-' :: (padDigits 2 t.hour ++ padDigits 2 t.minute ++
   padDigits 6 t.micro ++ ['U', 'T', 'C'])⟩

/-- A Python numeric value: finite values carry their (decimal) value —
`Decimal(str(rate))` preserves it exactly — and the non-finite floats are
explicit. -/
inductive PyFloat where
  | fin (d : Dec)
  | inf
  | ninf
  | nan
  deriving DecidableEq, Repr

/-- A JSON value inside the fetched payload's `rates` mapping.  Python
numbers (`int`/`float`) are `num`; a non-finite float is still a float, so
infinities and NaN are numbers here.  `nonnum` covers every other JSON
value. -/
inductive JVal where
  | num (v : PyFloat)
  | nonnum
  deriving DecidableEq, Repr

/-- `isinstance(rate, (int, float))`. -/
def JVal.isNumeric : JVal → Bool
  | .num _ => true
  | .nonnum => false

/-- The JSON object a successful fetch parses to (`{base, date, rates}`).
`ratesField` distinguishes a missing `rates` key, a `rates` value that is
not an object, and an object of entries. -/
inductive RatesField where
  | absent
  | nondict
  | dict (entries : List (String × JVal))
  deriving DecidableEq, Repr

structure Payload where
  ratesField : RatesField
  base : Option String
  date : Option String
  deriving DecidableEq, Repr

/-- Python truthiness of the payload dict: an empty JSON object (no keys at
all) is falsy. -/
def Payload.falsy (p : Payload) : Bool :=
  p.ratesField = .absent && p.base = none && p.date = none

/-- `validate_rates_data`: reject a falsy payload, a missing `rates` key, a
non-dict `rates`, an empty mapping, or any value that is not `int`/`float`.
(It checks nothing else: finiteness and positivity are not checked.) -/
def validate_rates_data : Option Payload → Bool
  | none => false
  | some p =>
    if p.falsy then false else
    match p.ratesField with
    | .absent => false
    | .nondict => false
    | .dict entries =>
      if entries.length = 0 then false
      else entries.all fun q => q.2.isNumeric

/-- What one attempt against the rate feed does. -/
inductive Outcome where
  | success (p : Payload)
  | timeout
  | httpError
  | jsonError
  | other
  deriving DecidableEq, Repr

/-- The loop body of `fetch_rates_from_frankfurter`, recursing on the number
of loop iterations left.  Result: the fetched payload (or `none`), the
number of attempts performed, and the list of backoff waits slept between
consecutive attempts (`2 ** attempt` seconds after attempt number
`attempt`).  A `jsonError` breaks out of the loop at once — no wait, no
further attempts. -/
def fetchAux (oc : ℕ → Outcome) (attempt : ℕ) : ℕ → Option Payload × ℕ × List ℕ
  | 0 => (none, attempt, [])
  | fuel+1 =>
    match oc attempt with
    | .success p => (some p, attempt + 1, [])
    | .jsonError => (none, attempt + 1, [])
    | _ =>
      if fuel = 0 then (none, attempt + 1, [])
      else
        let r := fetchAux oc (attempt + 1) fuel
        (r.1, r.2.1, 2 ^ attempt :: r.2.2)

/-- `fetch_rates_from_frankfurter(max_retries)` (the code's default for
`max_retries` is 3), with the outcome of each attempt supplied by `oc`. -/
def fetch_rates (oc : ℕ → Outcome) (maxRetries : ℕ) :
    Option Payload × ℕ × List ℕ :=
  fetchAux oc 0 maxRetries

/-- `decimal_rates[currency] = Decimal(str(rate))` over the fetched entries
(all numeric when this is reached), then `decimal_rates['EUR'] =
Decimal('1.0')` — a dict update: overwrite an existing EUR entry in place,
or append one. -/
def buildStoredRates (entries : List (String × JVal)) : List (String × PyFloat) :=
  let decs := entries.map fun q =>
    (q.1, match q.2 with
          | .num v => v
          | .nonnum => PyFloat.nan)
  if (decs.lookup "EUR").isSome then
    decs.map fun q => if q.1 = "EUR" then (q.1, PyFloat.fin ⟨10, -1⟩) else q
  else
    decs ++ [("EUR", PyFloat.fin ⟨10, -1⟩)]

/-- A rate-cache item as written by the sync service.  (The item also
carries `FetchTimestamp` and a 30-day `TTL`; no claim mentions them and they
are not modelled.) -/
structure StoredSnap where
  id : String
  base : String
  date : Option String
  rates : List (String × PyFloat)
  deriving DecidableEq, Repr

/-- `store_rates_in_cache`: convert the rates to decimals, inject EUR = 1,
and `put_item`; `putOk` is whether the put succeeds.  (`Decimal(str(x))` on
a non-numeric value would raise inside the `try` and return `False`; the
sync path only reaches this after validation, so every entry is numeric
here.) -/
def store_rates_in_cache (snapId : String) (p : Payload) (putOk : Bool)
    (store : List StoredSnap) : Bool × List StoredSnap :=
  match p.ratesField with
  | .dict entries =>
    if putOk then
      (true, store ++ [{ id := snapId
                         base := p.base.getD "EUR"
                         date := p.date
                         rates := buildStoredRates entries }])
    else (false, store)
  | _ => if putOk then
      (true, store ++ [{ id := snapId, base := p.base.getD "EUR",
                         date := p.date, rates := buildStoredRates [] }])
    else (false, store)

/-- `check_existing_snapshot`: `get_item` by snapshot id. -/
def check_existing_snapshot (store : List StoredSnap) (snapId : String) : Bool :=
  store.any fun it => it.id = snapId

/-- `sync_rates`: generate the id (supplied as `snapId`), short-circuit if
it already exists, fetch with retry, validate, store.  Returns the success
flag and the rate store after the call. -/
def sync_rates (oc : ℕ → Outcome) (putOk : Bool) (snapId : String)
    (store : List StoredSnap) : Bool × List StoredSnap :=
  if check_existing_snapshot store snapId then (true, store)
  else
    match (fetch_rates oc 3).1 with
    | none => (false, store)
    | some p =>
      if p.falsy then (false, store)
      else if validate_rates_data (some p) = false then (false, store)
      else
        let st := store_rates_in_cache snapId p putOk store
        if st.1 then (true, st.2) else (false, st.2)

/-- `max` over stored snapshots by id, first maximum winning ties. -/
def rsPickLatest : StoredSnap → List StoredSnap → StoredSnap
  | best, [] => best
  | best, x :: xs => rsPickLatest (if strLtB best.id x.id then x else best) xs

/-- The sync service's own `get_latest_snapshot` (debug endpoint): full
scan, maximum snapshot id, no `Rates` check and no `Limit`. -/
def rs_get_latest_snapshot (store : List StoredSnap) : Option StoredSnap :=
  match store with
  | [] => none
  | h :: t => some (rsPickLatest h t)

/-! ## Exact-arithmetic reference (modelled from the spec's words)

The spec describes the conversion arithmetic as *exact* decimal arithmetic
with only the final result rounded (spec section 4.2: "all intermediate
arithmetic uses exact decimal representation").  These definitions follow
those words — exact rational intermediates, one final half-up rounding to 2
places — and are compared against `calculate_conversion` (claim C2). -/

/-- Round the exact rational `n / (d * 10 ^ -e)`-style value
`(num : ℤ) / (den : ℕ)` scaled by `10 ^ e` to 2 decimal places, half-up
(away from zero).  `den` must be positive. -/
def exactQuant2 (num : ℤ) (den : ℕ) (e : ℤ) : Dec :=
  -- value * 100 = num * 10 ^ (e + 2) / den
  let e2 := e + 2
  let t := num.natAbs * 10 ^ (e2.toNat)
  let b := den * 10 ^ ((-e2).toNat)
  ⟨intSign num * ((2 * t + b) / (2 * b)), -2⟩

/-- The conversion arithmetic exactly as the spec words it: exact
intermediates, final result rounded half-up to 2 places, same branch
structure and pivot as the code. -/
def spec_calculate_exact (fc tc : String) (amount : Dec)
    (rates : List (String × Dec)) : Dec × String :=
  let fU := pyUpper fc
  let tU := pyUpper tc
  if fU = tU then (amount, "same_currency")
  else
    let fr := ratesGet rates fU
    let tr := ratesGet rates tU
    if fU = "EUR" then
      -- amount * rate(to), exactly
      (exactQuant2 (amount.c * tr.c) 1 (amount.e + tr.e), "eur_to_target")
    else if tU = "EUR" then
      -- amount / rate(from), exactly
      (exactQuant2 (amount.c * intSign fr.c) fr.c.natAbs (amount.e - fr.e),
        "source_to_eur")
    else
      (exactQuant2 (amount.c * tr.c * intSign fr.c) fr.c.natAbs
        (amount.e + tr.e - fr.e), "triangulation")

/-! ## Auxiliary definitions used by the claim statements -/

/-- The response's `original_amount` field, when the result is a success. -/
def ConvResult.respOrig : ConvResult → Option Dec
  | .ok _ _ _ _ _ o _ => some o
  | .err _ _ => none

/-- The response's `converted_amount` field, when the result is a success. -/
def ConvResult.respConv : ConvResult → Option Dec
  | .ok c _ _ _ _ _ _ => some c
  | .err _ _ => none

/-- Attempt outcomes the fetch loop retries (everything except a successful
parse and the non-retryable JSON decode error). -/
def Outcome.retryable : Outcome → Bool
  | .success _ => false
  | .jsonError => false
  | _ => true

/-- Order on instants by the fields that actually enter the snapshot id:
year, month, day, hour, minute, microsecond — seconds are not encoded. -/
def keyLt (t1 t2 : Timestamp) : Prop :=
  t1.year < t2.year ∨ (t1.year = t2.year ∧
  (t1.month < t2.month ∨ (t1.month = t2.month ∧
  (t1.day < t2.day ∨ (t1.day = t2.day ∧
  (t1.hour < t2.hour ∨ (t1.hour = t2.hour ∧
  (t1.minute < t2.minute ∨ (t1.minute = t2.minute ∧
  t1.micro < t2.micro)))))))))

/-- Chronological order on instants (all fields including seconds). -/
def chronLt (t1 t2 : Timestamp) : Prop :=
  t1.year < t2.year ∨ (t1.year = t2.year ∧
  (t1.month < t2.month ∨ (t1.month = t2.month ∧
  (t1.day < t2.day ∨ (t1.day = t2.day ∧
  (t1.hour < t2.hour ∨ (t1.hour = t2.hour ∧
  (t1.minute < t2.minute ∨ (t1.minute = t2.minute ∧
  (t1.second < t2.second ∨ (t1.second = t2.second ∧
  t1.micro < t2.micro)))))))))))

instance (t1 t2 : Timestamp) : Decidable (keyLt t1 t2) := by
  unfold keyLt; infer_instance

instance (t1 t2 : Timestamp) : Decidable (chronLt t1 t2) := by
  unfold chronLt; infer_instance

/-- The spec's example rate table `{USD: 1.1, GBP: 0.85}` (base EUR). -/
def demoRates : List (String × Dec) := [("USD", ⟨11, -1⟩), ("GBP", ⟨85, -2⟩)]

/-- A one-snapshot rate store holding the example table. -/
def demoStore : List SnapItem := [⟨"S1", "EUR", some "2025-01-01", demoRates⟩]

/-- Environment for a call whose audit put succeeds. -/
def okEnv : ConvEnv := ⟨demoStore, true, "txn1", "T1", "T2"⟩

/-- Environment for a call whose audit put fails. -/
def badEnv : ConvEnv := ⟨demoStore, false, "txn1", "T1", "T2"⟩

/-- Environment whose rate store is empty. -/
def emptyEnv : ConvEnv := ⟨[], true, "txn1", "T1", "T2"⟩

/-- `Decimal('0.0049999999999999999999999999996')`: a positive amount whose
exact quotient by 1 needs 29 significant digits, one more than the decimal
context keeps. -/
def cexAmt : Dec := ⟨49999999999999999999999999996, -31⟩

/-- `Decimal('1.00000000000000000001')`: an exact decimal amount that
`float()` collapses to `1.0`. -/
def cexAmt2 : Dec := ⟨100000000000000000001, -20⟩

/-- A store whose 51st item has the greatest snapshot id: items with id
`"A"` occupy the whole `Limit=50` scan window, id `"Z"` sits behind it. -/
def itemA : SnapItem := ⟨"A", "EUR", none, demoRates⟩

def itemZ : SnapItem := ⟨"Z", "EUR", none, demoRates⟩

def cexStore : List SnapItem := List.replicate 50 itemA ++ [itemZ]

/-- A non-empty store whose only (hence greatest-id) item has an empty
`Rates` mapping. -/
def cexStoreNoRates : List SnapItem := [⟨"S9", "EUR", none, []⟩]

/-- A fetched payload that passes `validate_rates_data` although it carries
a zero rate and a NaN rate. -/
def badPayload : Payload :=
  ⟨.dict [("USD", .num (.fin ⟨0, 0⟩)), ("XAU", .num .nan)], some "EUR", some "2025-01-01"⟩

/-! ## Helper lemmas -/

/-- `lexLt` is lexicographic order on character lists. -/
theorem lexLt_iff_lex (a : List Char) : ∀ b, lexLt a b = true ↔ List.Lex (· < ·) a b := by
  induction a with
  | nil =>
    intro b
    cases b with
    | nil => simp [lexLt]
    | cons y ys => simpa [lexLt] using List.Lex.nil
  | cons x xs ih =>
    intro b
    cases b with
    | nil =>
      rw [show lexLt (x :: xs) [] = false from rfl]
      simp
    | cons y ys =>
      rw [lexLt]
      rcases lt_trichotomy x y with h | h | h
      · rw [if_pos h]
        simpa using List.Lex.rel h
      · subst h
        rw [if_neg (lt_irrefl x), if_neg (lt_irrefl x), List.Lex.cons_iff]
        exact ih ys
      · rw [if_neg (asymm h), if_pos h]
        apply iff_of_false (by simp)
        intro hl
        cases hl with
        | cons h2 => exact lt_irrefl _ h
        | rel hr => exact lt_irrefl _ (lt_trans hr h)

/-- `strLtB` is the strict order on strings (Python `str` comparison). -/
theorem strLtB_iff (a b : String) : strLtB a b = true ↔ a < b := by
  rw [String.lt_iff_toList_lt]
  exact lexLt_iff_lex a.data b.data

/-- The element picked by the scan maximum is one of the scanned items. -/
theorem pickLatest_mem (l : List SnapItem) : ∀ b, pickLatest b l = b ∨ pickLatest b l ∈ l := by
  induction l with
  | nil => intro b; left; rfl
  | cons x xs ih =>
    intro b
    rw [pickLatest]
    rcases ih (if strLtB b.id x.id then x else b) with h | h
    · rw [h]
      by_cases hc : strLtB b.id x.id
      · rw [if_pos hc]; right; exact List.mem_cons_self x xs
      · rw [if_neg hc]; left; rfl
    · right; exact List.mem_cons_of_mem x h

/-- The element picked by the scan maximum has the greatest id among the
scanned items. -/
theorem pickLatest_max (l : List SnapItem) :
    ∀ b, ∀ j ∈ b :: l, j.id ≤ (pickLatest b l).id := by
  induction l with
  | nil =>
    intro b j hj
    rcases List.mem_singleton.mp hj with rfl
    exact le_rfl
  | cons x xs ih =>
    intro b j hj
    rw [pickLatest]
    have hb : b.id ≤ (if strLtB b.id x.id then x else b).id := by
      by_cases hc : strLtB b.id x.id
      · rw [if_pos hc]; exact le_of_lt ((strLtB_iff _ _).mp hc)
      · rw [if_neg hc]
    have hx : x.id ≤ (if strLtB b.id x.id then x else b).id := by
      by_cases hc : strLtB b.id x.id
      · rw [if_pos hc]
      · rw [if_neg hc]
        exact le_of_not_lt fun hlt => hc ((strLtB_iff _ _).mpr hlt)
    rcases List.mem_cons.mp hj with rfl | hj2
    · exact le_trans hb (ih _ _ (List.mem_cons_self _ _))
    rcases List.mem_cons.mp hj2 with rfl | hj3
    · exact le_trans hx (ih _ _ (List.mem_cons_self _ _))
    · exact ih _ _ (List.mem_cons_of_mem _ hj3)

/-- Stripping a string that actually carries surrounding whitespace makes
it strictly shorter. -/
theorem pyStrip_length_lt (s : String) (h : pyStrip s ≠ s) :
    (pyStrip s).length < s.length := by
  have h1 : (s.data.dropWhile isWs) <:+ s.data := List.dropWhile_suffix isWs
  have h2 : ((s.data.dropWhile isWs).reverse.dropWhile isWs) <:+
      (s.data.dropWhile isWs).reverse := List.dropWhile_suffix isWs
  have l1 : (s.data.dropWhile isWs).length ≤ s.data.length := h1.sublist.length_le
  have l2 : ((s.data.dropWhile isWs).reverse.dropWhile isWs).length ≤
      (s.data.dropWhile isWs).reverse.length := h2.sublist.length_le
  have hlen : (pyStrip s).length =
      ((s.data.dropWhile isWs).reverse.dropWhile isWs).length := by
    simp [pyStrip, stripList, String.length]
  have hslen : s.length = s.data.length := rfl
  rw [hlen, hslen]
  rcases lt_or_eq_of_le l2 with hlt | heq
  · have := (s.data.dropWhile isWs).length_reverse
    omega
  · have e2 : (s.data.dropWhile isWs).reverse.dropWhile isWs =
        (s.data.dropWhile isWs).reverse := h2.eq_of_length heq
    rcases lt_or_eq_of_le l1 with hlt1 | heq1
    · have := (s.data.dropWhile isWs).length_reverse
      omega
    · have e1 : s.data.dropWhile isWs = s.data := h1.eq_of_length heq1
      exfalso
      apply h
      show String.mk (stripList s.data) = s
      rw [stripList, e2, List.reverse_reverse, e1]

/-- A key of the wrong length is absent from a table whose keys all have
length 3. -/
theorem lookup_none_of_len {β : Type} (rs : List (String × β)) (k : String)
    (hk : ∀ p ∈ rs, p.1.length = 3) (h : k.length ≠ 3) : rs.lookup k = none := by
  induction rs with
  | nil => rfl
  | cons p ps ih =>
    rw [List.lookup]
    have hne : (k == p.1) = false := by
      rw [beq_eq_false_iff_ne]
      intro he
      exact h (he ▸ hk p (List.mem_cons_self p ps))
    rw [hne]
    exact ih fun q hq => hk q (List.mem_cons_of_mem p hq)

/-- Fixed-width rendering has the fixed width. -/
theorem padDigits_length (w : ℕ) : ∀ n, (padDigits w n).length = w := by
  induction w with
  | zero => intro n; rfl
  | succ w ih => intro n; simp [padDigits, ih]

/-- Digit characters are ordered like their digits. -/
theorem digitChar_lt : ∀ a, a < 10 → ∀ b, b < 10 → a < b →
    Char.ofNat (48 + a) < Char.ofNat (48 + b) := by decide

/-- Fixed-width rendering of a smaller number is lexicographically
smaller. -/
theorem padDigits_lex (w : ℕ) : ∀ n m, n < m → m < 10 ^ w →
    List.Lex (· < ·) (padDigits w n) (padDigits w m) := by
  induction w with
  | zero =>
    intro n m h hm
    omega
  | succ w ih =>
    intro n m h hm
    rw [padDigits, padDigits]
    have hd : n / 10 ^ w ≤ m / 10 ^ w := Nat.div_le_div_right (le_of_lt h)
    rcases lt_or_eq_of_le hd with hlt | heq
    · apply List.Lex.rel
      have hmd : m / 10 ^ w < 10 := by
        rw [Nat.div_lt_iff_lt_mul (Nat.pos_pow_of_pos w (by norm_num))]
        calc m < 10 ^ (w + 1) := hm
        _ = 10 ^ w * 10 := by ring
        _ ≤ 10 * 10 ^ w := by ring_nf; exact le_rfl
      exact digitChar_lt _ (lt_of_le_of_lt hd hmd) _ hmd hlt
    · rw [heq]
      apply List.Lex.cons
      apply ih
      · have hn := Nat.div_add_mod n (10 ^ w)
        have hm2 := Nat.div_add_mod m (10 ^ w)
        rw [heq] at hn
        omega
      · exact Nat.mod_lt m (Nat.pos_pow_of_pos w (by norm_num))

/-- A lexicographic difference is preserved when appending suffixes, as long
as the differing blocks have equal length. -/
theorem lex_append_left {l1 l2 : List Char} (h : List.Lex (· < ·) l1 l2)
    (hlen : l1.length = l2.length) :
    ∀ t1 t2, List.Lex (· < ·) (l1 ++ t1) (l2 ++ t2) := by
  induction h with
  | nil => simp at hlen
  | @cons a as bs h2 ih =>
    intro t1 t2
    exact List.Lex.cons (ih (by simpa using hlen) t1 t2)
  | rel h2 =>
    intro t1 t2
    exact List.Lex.rel h2

/-- A lexicographic difference in the suffix is preserved under a common
prefix. -/
theorem lex_append_right (l : List Char) {t1 t2 : List Char}
    (h : List.Lex (· < ·) t1 t2) : List.Lex (· < ·) (l ++ t1) (l ++ t2) := by
  induction l with
  | nil => exact h
  | cons c cs ih => exact List.Lex.cons ih

/-- Rewriting every EUR binding of a table to `Decimal('1.0')` makes EUR
look up to `Decimal('1.0')`, provided some EUR binding exists. -/
theorem lookup_overwrite_eur (l : List (String × PyFloat))
    (h : (l.lookup "EUR").isSome) :
    (l.map fun q => if q.1 = "EUR" then (q.1, PyFloat.fin ⟨10, -1⟩) else q).lookup
      "EUR" = some (.fin ⟨10, -1⟩) := by
  induction l with
  | nil => simp [List.lookup] at h
  | cons p ps ih =>
    obtain ⟨k, v⟩ := p
    by_cases hk : k = "EUR"
    · subst hk
      simp [List.lookup]
    · have hb : ("EUR" == k) = false := by
        rw [beq_eq_false_iff_ne]; exact fun he => hk he.symm
      rw [List.map_cons, if_neg hk]
      rw [List.lookup, hb]
      apply ih
      rw [List.lookup, hb] at h
      exact h

/-- Appending an EUR binding to a table with no EUR binding makes EUR look
up to the appended value. -/
theorem lookup_append_eur (l : List (String × PyFloat)) (v : PyFloat)
    (h : l.lookup "EUR" = none) :
    (l ++ [("EUR", v)]).lookup "EUR" = some v := by
  induction l with
  | nil => simp [List.lookup]
  | cons p ps ih =>
    obtain ⟨k, w⟩ := p
    have hb : ("EUR" == k) = false := by
      by_contra hbne
      rw [Bool.not_eq_false, beq_iff_eq] at hbne
      rw [List.lookup, beq_iff_eq.mpr hbne] at h
      exact Option.noConfusion h
    rw [List.cons_append, List.lookup, hb]
    apply ih
    rw [List.lookup, hb] at h
    exact h

/-- Looking up EUR after the dict update `decimal_rates['EUR'] =
Decimal('1.0')` yields `Decimal('1.0')`, whatever the fetched entries. -/
theorem buildStoredRates_eur (entries : List (String × JVal)) :
    (buildStoredRates entries).lookup "EUR" = some (.fin ⟨10, -1⟩) := by
  rw [buildStoredRates]
  by_cases hc : ((entries.map fun q =>
      (q.1, match q.2 with
            | .num v => v
            | .nonnum => PyFloat.nan)).lookup "EUR").isSome
  · rw [if_pos hc]
    exact lookup_overwrite_eur _ hc
  · rw [if_neg hc]
    apply lookup_append_eur
    rw [Option.not_isSome_iff_eq_none] at hc
    exact hc

/-- One retried attempt of the fetch loop: a retryable outcome sleeps
`2 ^ attempt` and continues with the next attempt. -/
theorem fetchAux_retry (oc : ℕ → Outcome) (attempt fuel : ℕ)
    (h : (oc attempt).retryable = true) :
    fetchAux oc attempt (fuel + 2) =
      ((fetchAux oc (attempt + 1) (fuel + 1)).1,
       (fetchAux oc (attempt + 1) (fuel + 1)).2.1,
       2 ^ attempt :: (fetchAux oc (attempt + 1) (fuel + 1)).2.2) := by
  rcases ho : oc attempt with p | _ | _ | _ | _ <;>
    rw [ho] at h <;> simp [Outcome.retryable] at h <;>
    simp [fetchAux, ho]

/-- The final attempt of the fetch loop: a retryable outcome with no fuel
left just gives up. -/
theorem fetchAux_last (oc : ℕ → Outcome) (attempt : ℕ)
    (h : (oc attempt).retryable = true) :
    fetchAux oc attempt 1 = (none, attempt + 1, []) := by
  rcases ho : oc attempt with p | _ | _ | _ | _ <;>
    rw [ho] at h <;> simp [Outcome.retryable] at h <;>
    simp [fetchAux, ho]

/-- A JSON decode error stops the fetch loop at once. -/
theorem fetchAux_json (oc : ℕ → Outcome) (attempt fuel : ℕ)
    (h : oc attempt = .jsonError) :
    fetchAux oc attempt (fuel + 1) = (none, attempt + 1, []) := by
  simp [fetchAux, h]

/-! ## Claim C7 — calculation-method enumeration (corrected) -/

/-- C7 counterexample: the pivot branches label conversions
`eur_to_target` and `source_to_eur`, not the claimed `pivot_to_target` and
`source_to_pivot`: converting 100 EUR to USD (and 100 USD to EUR) under the
example snapshot returns methods outside the claimed enumeration. -/
theorem c7_counterexample :
    (calculate_conversion "EUR" "USD" ⟨100, 0⟩ demoRates).2 = "eur_to_target" ∧
    (calculate_conversion "USD" "EUR" ⟨100, 0⟩ demoRates).2 = "source_to_eur" ∧
    "eur_to_target" ∉
      (["same_currency", "pivot_to_target", "source_to_pivot", "triangulation"] : List String) ∧
    "source_to_eur" ∉
      (["same_currency", "pivot_to_target", "source_to_pivot", "triangulation"] : List String) := by
  decide

/-- C7 amended: the calculation_method returned by `calculate_conversion`
(and recorded in the audit record) is one of exactly
same_currency / eur_to_target / source_to_eur / triangulation —
same_currency when the codes coincide, eur_to_target when the source is the
pivot EUR, source_to_eur when the target is the pivot, triangulation
otherwise. -/
theorem c7_theorem (fc tc : String) (a : Dec) (rs : List (String × Dec)) :
    ((calculate_conversion fc tc a rs).2 ∈
      (["same_currency", "eur_to_target", "source_to_eur", "triangulation"] : List String)) ∧
    (pyUpper fc = pyUpper tc →
      (calculate_conversion fc tc a rs).2 = "same_currency") ∧
    (pyUpper fc ≠ pyUpper tc → pyUpper fc = "EUR" →
      (calculate_conversion fc tc a rs).2 = "eur_to_target") ∧
    (pyUpper fc ≠ pyUpper tc → pyUpper fc ≠ "EUR" → pyUpper tc = "EUR" →
      (calculate_conversion fc tc a rs).2 = "source_to_eur") ∧
    (pyUpper fc ≠ pyUpper tc → pyUpper fc ≠ "EUR" → pyUpper tc ≠ "EUR" →
      (calculate_conversion fc tc a rs).2 = "triangulation") := by
  by_cases h1 : pyUpper fc = pyUpper tc
  · simp [calculate_conversion, h1]
  · by_cases h2 : pyUpper fc = "EUR"
    · have h4 : ¬("EUR" = pyUpper tc) := fun he => h1 (h2.trans he)
      simp [calculate_conversion, h1, h2, h4]
    · by_cases h3 : pyUpper tc = "EUR"
      · simp [calculate_conversion, h1, h2, h3]
      · simp [calculate_conversion, h1, h2, h3]

/-- C7 witness: the triangulation branch at the spec's example inputs. -/
theorem c7_witness :
    (calculate_conversion "USD" "GBP" ⟨50, 0⟩ demoRates).2 = "triangulation" :=
  ( c7_theorem "USD" "GBP" ⟨50, 0⟩ demoRates).2.2.2.2 (by decide) (by decide) (by decide)

/-! ## Claim C8 — bounded retry with backoff (confirmed) -/

/-- C8: when every attempt fails with a transient error (timeout), the fetch
performs exactly 3 attempts, sleeping 1 then 2 time units (strictly
increasing, doubling) between consecutive attempts, and returns failure;
whereas an unparseable-JSON outcome at attempt `k` (after `k` retryable
failures) aborts immediately: `k + 1` attempts, no further waits, failure
returned. -/
theorem c8_theorem (oc oc2 : ℕ → Outcome) (k : ℕ)
    (h1 : ∀ i, oc i = .timeout)
    (hk : k < 3) (h2 : ∀ i, i < k → (oc2 i).retryable = true)
    (h3 : oc2 k = .jsonError) :
    fetch_rates oc 3 = (none, 3, [1, 2]) ∧ (1 : ℕ) < 2 ∧
    fetch_rates oc2 3 = (none, k + 1, (List.range k).map (2 ^ ·)) := by
  refine ⟨?_, by norm_num, ?_⟩
  · have r0 : (oc 0).retryable = true := by rw [h1 0]; rfl
    have r1 : (oc 1).retryable = true := by rw [h1 1]; rfl
    have e2 : fetchAux oc 2 1 = (none, 3, []) :=
      fetchAux_last oc 2 (by rw [h1 2]; rfl)
    have e1 : fetchAux oc 1 2 = (none, 3, [2]) := by
      rw [show (2 : ℕ) = 0 + 2 from rfl, fetchAux_retry oc 1 0 r1]
      rw [show (1 : ℕ) + 1 = 2 from rfl, show (0 : ℕ) + 1 = 1 from rfl, e2]
      rfl
    show fetchAux oc 0 3 = (none, 3, [1, 2])
    rw [show (3 : ℕ) = 1 + 2 from rfl, fetchAux_retry oc 0 1 r0]
    rw [show (0 : ℕ) + 1 = 1 from rfl, show (1 : ℕ) + 1 = 2 from rfl, e1]
    rfl
  · interval_cases k
    · show fetchAux oc2 0 3 = (none, 1, _)
      rw [show (3 : ℕ) = 2 + 1 from rfl, fetchAux_json oc2 0 2 h3]
      rfl
    · have r0 := h2 0 (by norm_num)
      show fetchAux oc2 0 3 = (none, 2, _)
      rw [show (3 : ℕ) = 1 + 2 from rfl, fetchAux_retry oc2 0 1 r0]
      rw [show (0 : ℕ) + 1 = 1 from rfl, show (1 : ℕ) + 1 = 2 from rfl,
        fetchAux_json oc2 1 1 h3]
      rfl
    · have r0 := h2 0 (by norm_num)
      have r1 := h2 1 (by norm_num)
      show fetchAux oc2 0 3 = (none, 3, _)
      rw [show (3 : ℕ) = 1 + 2 from rfl, fetchAux_retry oc2 0 1 r0]
      rw [show (0 : ℕ) + 1 = 1 from rfl, show (1 : ℕ) + 1 = 2 from rfl,
        show (2 : ℕ) = 0 + 2 from rfl, fetchAux_retry oc2 1 0 r1]
      rw [show (0 : ℕ) + 1 = 1 from rfl, show (1 : ℕ) + 1 = 2 from rfl,
        fetchAux_json oc2 2 0 h3]
      rfl

/-- C8 witness: an always-timing-out feed, and a feed whose second attempt
returns unparseable JSON. -/
theorem c8_witness :
    fetch_rates (fun _ => .timeout) 3 = (none, 3, [1, 2]) ∧ (1 : ℕ) < 2 ∧
    fetch_rates (fun i => if i = 1 then .jsonError else .timeout) 3 = (none, 2, [1]) := by
  have h := c8_theorem (fun _ => .timeout)
    (fun i => if i = 1 then .jsonError else .timeout) 1
    (fun _ => rfl) (by norm_num)
    (fun i hi => by interval_cases i; rfl) (by rfl)
  exact ⟨h.1, h.2.1, h.2.2.trans (by decide)⟩

/-! ## Claim C9 — pivot-rate invariant (confirmed) -/

/-- C9: every snapshot `store_rates_in_cache` persists has EUR in its rates
mapping, bound to `Decimal('1.0')` (value exactly 1), whether or not the
fetched payload carried an EUR entry and regardless of that entry's
value. -/
theorem c9_theorem (snapId : String) (p : Payload) (putOk : Bool)
    (store store2 : List StoredSnap) (r : Bool)
    (h : store_rates_in_cache snapId p putOk store = (r, store2))
    (hr : r = true) :
    ∃ item : StoredSnap, store2 = store ++ [item] ∧ item.id = snapId ∧
      item.rates.lookup "EUR" = some (.fin ⟨10, -1⟩) ∧ decEqv ⟨10, -1⟩ ⟨1, 0⟩ := by
  subst hr
  rw [store_rates_in_cache] at h
  rcases hp : p.ratesField with _ | _ | entries <;> simp only [hp] at h
  · by_cases hput : putOk = true
    · rw [if_pos hput] at h
      exact ⟨_, (congrArg Prod.snd h).symm, rfl, buildStoredRates_eur [], by decide⟩
    · rw [if_neg hput] at h
      exact absurd (congrArg Prod.fst h) Bool.false_ne_true
  · by_cases hput : putOk = true
    · rw [if_pos hput] at h
      exact ⟨_, (congrArg Prod.snd h).symm, rfl, buildStoredRates_eur [], by decide⟩
    · rw [if_neg hput] at h
      exact absurd (congrArg Prod.fst h) Bool.false_ne_true
  · by_cases hput : putOk = true
    · rw [if_pos hput] at h
      exact ⟨_, (congrArg Prod.snd h).symm, rfl, buildStoredRates_eur entries, by decide⟩
    · rw [if_neg hput] at h
      exact absurd (congrArg Prod.fst h) Bool.false_ne_true

/-- C9 witness: syncing a payload that carries no EUR entry (and even a zero
and a NaN rate) still persists EUR with value 1. -/
theorem c9_witness :
    ∃ item : StoredSnap,
      (store_rates_in_cache "SID" badPayload true []).2 = [] ++ [item] ∧
      item.id = "SID" ∧
      item.rates.lookup "EUR" = some (.fin ⟨10, -1⟩) ∧ decEqv ⟨10, -1⟩ ⟨1, 0⟩ :=
  c9_theorem "SID" badPayload true []
    (store_rates_in_cache "SID" badPayload true []).2
    (store_rates_in_cache "SID" badPayload true []).1 rfl (by decide)

/-! ## Claim C5 — snapshot-id time-sortability (corrected) -/

/-- C5 counterexample: the id format has no seconds field, so an earlier
instant can generate a lexicographically larger id: 12:00:30.000001 maps to
`...-1200000001UTC` and the later 12:00:31.000000 to `...-1200000000UTC`. -/
theorem c5_counterexample :
    chronLt ⟨2025, 1, 1, 12, 0, 30, 1⟩ ⟨2025, 1, 1, 12, 0, 31, 0⟩ ∧
    generate_snapshot_id ⟨2025, 1, 1, 12, 0, 30, 1⟩ = "20250101-1200000001UTC" ∧
    generate_snapshot_id ⟨2025, 1, 1, 12, 0, 31, 0⟩ = "20250101-1200000000UTC" ∧
    ¬ generate_snapshot_id ⟨2025, 1, 1, 12, 0, 30, 1⟩ <
        generate_snapshot_id ⟨2025, 1, 1, 12, 0, 31, 0⟩ ∧
    generate_snapshot_id ⟨2025, 1, 1, 12, 0, 31, 0⟩ <
      generate_snapshot_id ⟨2025, 1, 1, 12, 0, 30, 1⟩ := by
  refine ⟨by decide, by decide, by decide, ?_, (strLtB_iff _ _).mp (by decide)⟩
  intro h
  have hb := (strLtB_iff (generate_snapshot_id ⟨2025, 1, 1, 12, 0, 30, 1⟩)
    (generate_snapshot_id ⟨2025, 1, 1, 12, 0, 31, 0⟩)).mpr h
  have hf : strLtB (generate_snapshot_id ⟨2025, 1, 1, 12, 0, 30, 1⟩)
      (generate_snapshot_id ⟨2025, 1, 1, 12, 0, 31, 0⟩) = false := by decide
  rw [hf] at hb
  exact Bool.false_ne_true hb

/-- C5 amended: `generate_snapshot_id` is a deterministic function of the
UTC time that is lexicographically sortable by the key it actually encodes —
(year, month, day, hour, minute, microsecond); the seconds field is dropped
by the format, so capture order within a minute can be inverted (see the
counterexample). -/
theorem c5_theorem (t1 t2 : Timestamp)
    (hy : t2.year < 10000) (hmo : t2.month < 100) (hd : t2.day < 100)
    (hh : t2.hour < 100) (hmi : t2.minute < 100) (hmic : t2.micro < 1000000)
    (hk : keyLt t1 t2) :
    generate_snapshot_id t1 < generate_snapshot_id t2 := by
  have key : List.Lex (· < ·)
      (padDigits 4 t1.year ++ (padDigits 2 t1.month ++ (padDigits 2 t1.day ++
        '-' :: (padDigits 2 t1.hour ++ (padDigits 2 t1.minute ++
          (padDigits 6 t1.micro ++ ['U', 'T', 'C']))))))
      (padDigits 4 t2.year ++ (padDigits 2 t2.month ++ (padDigits 2 t2.day ++
        '-' :: (padDigits 2 t2.hour ++ (padDigits 2 t2.minute ++
          (padDigits 6 t2.micro ++ ['U', 'T', 'C'])))))) := by
    rcases hk with h | ⟨e1, h | ⟨e2, h | ⟨e3, h | ⟨e4, h | ⟨e5, h⟩⟩⟩⟩⟩
    · exact lex_append_left (padDigits_lex 4 _ _ h hy)
        (by rw [padDigits_length, padDigits_length]) _ _
    · rw [e1]
      apply lex_append_right
      exact lex_append_left (padDigits_lex 2 _ _ h hmo)
        (by rw [padDigits_length, padDigits_length]) _ _
    · rw [e1, e2]
      apply lex_append_right
      apply lex_append_right
      exact lex_append_left (padDigits_lex 2 _ _ h hd)
        (by rw [padDigits_length, padDigits_length]) _ _
    · rw [e1, e2, e3]
      apply lex_append_right
      apply lex_append_right
      apply lex_append_right
      apply List.Lex.cons
      exact lex_append_left (padDigits_lex 2 _ _ h hh)
        (by rw [padDigits_length, padDigits_length]) _ _
    · rw [e1, e2, e3, e4]
      apply lex_append_right
      apply lex_append_right
      apply lex_append_right
      apply List.Lex.cons
      apply lex_append_right
      exact lex_append_left (padDigits_lex 2 _ _ h hmi)
        (by rw [padDigits_length, padDigits_length]) _ _
    · rw [e1, e2, e3, e4, e5]
      apply lex_append_right
      apply lex_append_right
      apply lex_append_right
      apply List.Lex.cons
      apply lex_append_right
      apply lex_append_right
      exact lex_append_left (padDigits_lex 6 _ _ h hmic)
        (by rw [padDigits_length, padDigits_length]) _ _
  have hb : strLtB (generate_snapshot_id t1) (generate_snapshot_id t2) = true := by
    rw [strLtB, lexLt_iff_lex]
    show List.Lex (· < ·)
      (padDigits 4 t1.year ++ padDigits 2 t1.month ++ padDigits 2 t1.day ++
        '-' :: (padDigits 2 t1.hour ++ padDigits 2 t1.minute ++
          padDigits 6 t1.micro ++ ['U', 'T', 'C']))
      (padDigits 4 t2.year ++ padDigits 2 t2.month ++ padDigits 2 t2.day ++
        '-' :: (padDigits 2 t2.hour ++ padDigits 2 t2.minute ++
          padDigits 6 t2.micro ++ ['U', 'T', 'C']))
    simp only [List.append_assoc]
    exact key
  exact (strLtB_iff _ _).mp hb

/-- C5 witness: an id from minute 12:00 sorts before an id from minute
12:01. -/
theorem c5_witness :
    generate_snapshot_id ⟨2025, 1, 1, 12, 0, 0, 5⟩ <
      generate_snapshot_id ⟨2025, 1, 1, 12, 1, 0, 0⟩ :=
  c5_theorem ⟨2025, 1, 1, 12, 0, 0, 5⟩ ⟨2025, 1, 1, 12, 1, 0, 0⟩
    (by norm_num) (by norm_num) (by norm_num) (by norm_num) (by norm_num)
    (by norm_num) (by rw [keyLt]; norm_num)

/-! ## Claim C6 — rate-payload validation invariant (corrected) -/

/-- What `validate_rates_data` accepts: a truthy payload whose `rates` key
holds a non-empty dict of `int`/`float` values — nothing about finiteness
or positivity. -/
theorem validate_char (p : Payload) :
    validate_rates_data (some p) = true ↔
      (p.falsy = false ∧ ∃ entries, p.ratesField = .dict entries ∧ entries ≠ [] ∧
        ∀ q ∈ entries, q.2.isNumeric = true) := by
  by_cases hf : p.falsy
  · simp [validate_rates_data, hf]
  · rcases hp : p.ratesField with _ | _ | entries
    · simp [validate_rates_data, hf, hp]
    · simp [validate_rates_data, hf, hp]
    · by_cases he : entries = []
      · subst he
        simp [validate_rates_data, hf, hp]
      · have hlen : entries.length ≠ 0 := fun h => he (List.length_eq_zero.mp h)
        simp [validate_rates_data, hf, hp, hlen, he, List.all_eq_true]

/-- C6 amended: sync never persists a snapshot whose fetched rates mapping
is empty or contains a non-numeric value — but `validate_rates_data` checks
only `isinstance(rate, (int, float))`, so zero, negative and non-finite
(inf/NaN) rate values pass validation and are persisted (see the
counterexample). -/
theorem c6_theorem (p : Payload) (oc : ℕ → Outcome) (putOk : Bool)
    (snapId : String) (store store2 : List StoredSnap) (r : Bool) :
    (validate_rates_data (some p) = true ↔
      (p.falsy = false ∧ ∃ entries, p.ratesField = .dict entries ∧ entries ≠ [] ∧
        ∀ q ∈ entries, q.2.isNumeric = true)) ∧
    (sync_rates oc putOk snapId store = (r, store2) → store2 ≠ store →
      ∃ p2 entries, (fetch_rates oc 3).1 = some p2 ∧ p2.ratesField = .dict entries ∧
        entries ≠ [] ∧ (∀ q ∈ entries, q.2.isNumeric = true) ∧
        store2 = store ++
          [⟨snapId, p2.base.getD "EUR", p2.date, buildStoredRates entries⟩]) := by
  refine ⟨validate_char p, ?_⟩
  intro h hne
  rw [sync_rates] at h
  by_cases hex : check_existing_snapshot store snapId
  · rw [if_pos hex] at h
    exact absurd (congrArg Prod.snd h).symm hne
  · rw [if_neg hex] at h
    rcases hfetch : (fetch_rates oc 3).1 with _ | p2
    · simp only [hfetch] at h
      exact absurd (congrArg Prod.snd h).symm hne
    · simp only [hfetch] at h
      by_cases hfal : p2.falsy
      · rw [if_pos (by rw [hfal] : p2.falsy = true)] at h
        exact absurd (congrArg Prod.snd h).symm hne
      · have hfal2 : p2.falsy = false := by revert hfal; cases p2.falsy <;> simp
        rw [if_neg (by rw [hfal2]; exact Bool.false_ne_true)] at h
        by_cases hval : validate_rates_data (some p2) = false
        · rw [if_pos hval] at h
          exact absurd (congrArg Prod.snd h).symm hne
        · rw [if_neg hval] at h
          have hval2 : validate_rates_data (some p2) = true := by
            revert hval; cases validate_rates_data (some p2) <;> simp
          obtain ⟨-, entries, hdict, hne2, hnum⟩ := (validate_char p2).mp hval2
          simp only [store_rates_in_cache, hdict] at h
          by_cases hput : putOk = true
          · rw [if_pos hput] at h
            refine ⟨p2, entries, rfl, hdict, hne2, hnum, ?_⟩
            have h2 := congrArg Prod.snd h
            simp only at h2
            exact h2.symm
          · rw [if_neg hput] at h
            simp only at h
            exact absurd (congrArg Prod.snd h).symm hne

/-- C6 counterexample: a payload carrying a zero rate and a NaN rate passes
validation, and sync persists it. -/
theorem c6_counterexample :
    validate_rates_data (some badPayload) = true ∧
    sync_rates (fun _ => .success badPayload) true "SID" [] =
      (true, [⟨"SID", "EUR", some "2025-01-01",
        [("USD", .fin ⟨0, 0⟩), ("XAU", .nan), ("EUR", .fin ⟨10, -1⟩)]⟩]) ∧
    (⟨0, 0⟩ : Dec).c ≤ 0 := by
  decide

/-- C6 witness: the persistence characterization applied to the zero/NaN
payload sync run. -/
theorem c6_witness :
    ∃ p2 entries,
      (fetch_rates (fun _ => .success badPayload) 3).1 = some p2 ∧
      p2.ratesField = .dict entries ∧ entries ≠ [] ∧
      (∀ q ∈ entries, q.2.isNumeric = true) ∧
      (sync_rates (fun _ => .success badPayload) true "SID" []).2 = [] ++
        [⟨"SID", p2.base.getD "EUR", p2.date, buildStoredRates entries⟩] :=
  (c6_theorem badPayload (fun _ => .success badPayload) true "SID" []
    (sync_rates (fun _ => .success badPayload) true "SID" []).2
    (sync_rates (fun _ => .success badPayload) true "SID" []).1).2 rfl (by decide)

/-! ## Claim C1 — fail-closed audit gate (confirmed) -/

/-- C1: a convert request that passes amount validation, currency
validation and snapshot lookup, whose audit write fails, is reported as a
failed conversion — the error payload `Audit logging failed` with status
500, never a success payload (so no `converted_amount`), and the audit
table is untouched.  (The rates consulted are assumed nonzero: a zero rate
would raise inside the arithmetic before the audit write is attempted.) -/
theorem c1_theorem (env : ConvEnv) (audit : List (String × AuditRecord))
    (fc tc raw : String) (a : Dec) (snap : SnapItem)
    (h1 : 0 < a.c) (h2 : decLtB ⟨1000000000, 0⟩ a = false)
    (hf : fc ≠ "") (ht : tc ≠ "")
    (hlf : (pyStrip (pyUpper fc)).length = 3)
    (hlt : (pyStrip (pyUpper tc)).length = 3)
    (hsnap : get_latest_rate_snapshot env.rateStore = some snap)
    (hfok : ¬(pyUpper fc ≠ "EUR" ∧ (snap.rates.lookup (pyUpper fc)).isNone = true))
    (htok : ¬(pyUpper tc ≠ "EUR" ∧ (snap.rates.lookup (pyUpper tc)).isNone = true))
    (haud : env.auditOk = false) :
    perform_conversion env audit fc tc raw (some a) =
      (.err "Audit logging failed" 500, audit) ∧
    ∀ ca si tx f2 t2 oa ts,
      (perform_conversion env audit fc tc raw (some a)).1 ≠
        .ok ca si tx f2 t2 oa ts := by
  have hal : ∀ txn f2 t2 o cv si m rs,
      create_audit_log env txn f2 t2 o cv si m rs audit = (false, audit) := by
    intro txn f2 t2 o cv si m rs
    simp [create_audit_log, haud]
  have e : perform_conversion env audit fc tc raw (some a) =
      (.err "Audit logging failed" 500, audit) := by
    simp only [perform_conversion, hsnap]
    rw [if_neg, if_neg, if_neg, if_neg hfok, if_neg htok, hal]
    · rfl
    · rintro (hc | hc)
      · exact hc hlf
      · exact hc hlt
    · rintro (hc | hc)
      · exact hf hc
      · exact ht hc
    · rintro (hc | hc)
      · omega
      · rw [h2] at hc
        exact Bool.false_ne_true hc
  refine ⟨e, ?_⟩
  intro ca si tx f2 t2 oa ts hcontra
  rw [e] at hcontra
  exact ConvResult.noConfusion hcontra

/-- C1 witness: converting 50 USD to GBP against the example snapshot with
a failing audit store. -/
theorem c1_witness :
    perform_conversion badEnv [] "USD" "GBP" "50" (some ⟨50, 0⟩) =
      (.err "Audit logging failed" 500, []) :=
  (c1_theorem badEnv [] "USD" "GBP" "50" ⟨50, 0⟩
    ⟨"S1", "EUR", some "2025-01-01", demoRates⟩
    (by decide) (by decide) (by decide) (by decide) (by decide) (by decide)
    (by decide) (by decide) (by decide) rfl).1

/-! ## Claim C10 — whitespace-padded currency codes never convert
(confirmed) -/

/-- C10: a request whose `from` (or `to`) code carries surrounding
whitespace but trims to a valid 3-letter code passes the 3-character length
check — which strips — yet always fails with `Currency not supported`
naming the uppercased untrimmed code (status 400), because the membership
check rebinds the code without stripping; the audit table is untouched, so
neither the arithmetic's result nor an audit write is ever exposed. -/
theorem c10_theorem (env : ConvEnv) (audit : List (String × AuditRecord))
    (fc tc raw : String) (a : Dec) (snap : SnapItem)
    (h1 : 0 < a.c) (h2 : decLtB ⟨1000000000, 0⟩ a = false)
    (hf : fc ≠ "") (ht : tc ≠ "")
    (hsnap : get_latest_rate_snapshot env.rateStore = some snap)
    (hkeys : ∀ p ∈ snap.rates, p.1.length = 3)
    (hlf : (pyStrip (pyUpper fc)).length = 3)
    (hlt : (pyStrip (pyUpper tc)).length = 3) :
    (pyStrip (pyUpper fc) ≠ pyUpper fc →
      perform_conversion env audit fc tc raw (some a) =
        (.err ("Currency not supported: " ++ pyUpper fc) 400, audit)) ∧
    (¬(pyUpper fc ≠ "EUR" ∧ (snap.rates.lookup (pyUpper fc)).isNone = true) →
      pyStrip (pyUpper tc) ≠ pyUpper tc →
      perform_conversion env audit fc tc raw (some a) =
        (.err ("Currency not supported: " ++ pyUpper tc) 400, audit)) := by
  have hpre : ∀ s : String, pyStrip (pyUpper s) ≠ pyUpper s →
      (pyStrip (pyUpper s)).length = 3 →
      pyUpper s ≠ "EUR" ∧ (snap.rates.lookup (pyUpper s)).isNone = true := by
    intro s hp hl
    have hlt3 := pyStrip_length_lt (pyUpper s) hp
    have hlen : (pyUpper s).length ≠ 3 := by omega
    refine ⟨fun he => ?_, ?_⟩
    · rw [he] at hlen
      exact hlen rfl
    · rw [lookup_none_of_len snap.rates (pyUpper s) hkeys hlen]
      rfl
  constructor
  · intro hpf
    simp only [perform_conversion, hsnap]
    rw [if_neg, if_neg, if_neg, if_pos (hpre fc hpf hlf)]
    · rintro (hc | hc)
      · exact hc hlf
      · exact hc hlt
    · rintro (hc | hc)
      · exact hf hc
      · exact ht hc
    · rintro (hc | hc)
      · omega
      · rw [h2] at hc
        exact Bool.false_ne_true hc
  · intro hfok hpt
    simp only [perform_conversion, hsnap]
    rw [if_neg, if_neg, if_neg, if_neg hfok, if_pos (hpre tc hpt hlt)]
    · rintro (hc | hc)
      · exact hc hlf
      · exact hc hlt
    · rintro (hc | hc)
      · exact hf hc
      · exact ht hc
    · rintro (hc | hc)
      · omega
      · rw [h2] at hc
        exact Bool.false_ne_true hc

/-- C10 witness: `' USD'` trims to the supported USD yet the request fails
with `Currency not supported:  USD` and no audit write. -/
theorem c10_witness :
    perform_conversion okEnv [] " USD" "GBP" "50" (some ⟨50, 0⟩) =
      (.err "Currency not supported:  USD" 400, []) :=
  (c10_theorem okEnv [] " USD" "GBP" "50" ⟨50, 0⟩
    ⟨"S1", "EUR", some "2025-01-01", demoRates⟩
    (by decide) (by decide) (by decide) (by decide) (by decide) (by decide)
    (by decide) (by decide)).1 (by decide)

/-! ## Claim C4 — latest-snapshot selection (corrected) -/

set_option maxRecDepth 8000 in
/-- C4 counterexample: with 51 stored snapshots, the `Limit=50` scan never
sees the 51st; the returned snapshot (`id "A"`) is not the one with the
lexicographically greatest id over all entries (`id "Z"`).  And a
non-empty store whose only snapshot has empty rates yields `none`, so
`none` is not returned exactly when the store is empty. -/
theorem c4_counterexample :
    get_latest_rate_snapshot cexStore = some itemA ∧
    itemZ ∈ cexStore ∧ itemA.id < itemZ.id ∧ itemA ≠ itemZ ∧
    get_latest_rate_snapshot cexStoreNoRates = none ∧ cexStoreNoRates ≠ [] := by
  refine ⟨by decide, by decide, (strLtB_iff _ _).mp (by decide), by decide,
    by decide, by decide⟩

/-- C4 amended: `get_latest_rate_snapshot` returns the stored snapshot with
the lexicographically greatest id *among the first 50 entries the scan
returns* — provided that snapshot has a non-empty rates mapping — and
returns `none` when the store is empty *or* the selected snapshot has
missing/empty rates; on an empty store, convert fails with
`No exchange rates available` (status 503) without touching the audit
table. -/
theorem c4_theorem (store : List SnapItem) (env : ConvEnv)
    (audit : List (String × AuditRecord)) (fc tc raw : String) (a : Dec)
    (h1 : 0 < a.c) (h2 : decLtB ⟨1000000000, 0⟩ a = false)
    (hf : fc ≠ "") (ht : tc ≠ "")
    (hlf : (pyStrip (pyUpper fc)).length = 3)
    (hlt : (pyStrip (pyUpper tc)).length = 3)
    (hempty : env.rateStore = []) :
    (store = [] → get_latest_rate_snapshot store = none) ∧
    (∀ it, get_latest_rate_snapshot store = some it →
      it ∈ store.take 50 ∧ it.rates ≠ [] ∧ ∀ j ∈ store.take 50, j.id ≤ it.id) ∧
    (get_latest_rate_snapshot store = none →
      store.take 50 = [] ∨
        ∃ x xs, store.take 50 = x :: xs ∧ (pickLatest x xs).rates = []) ∧
    (perform_conversion env audit fc tc raw (some a) =
      (.err "No exchange rates available" 503, audit)) := by
  refine ⟨?_, ?_, ?_, ?_⟩
  · intro h
    subst h
    rfl
  · intro it hit
    rw [get_latest_rate_snapshot] at hit
    rcases htake : store.take 50 with _ | ⟨x, xs⟩ <;> simp only [htake] at hit
    · exact Option.noConfusion hit
    · by_cases hre : (pickLatest x xs).rates.isEmpty
      · rw [if_pos hre] at hit
        exact Option.noConfusion hit
      · rw [if_neg hre] at hit
        obtain rfl := (Option.some.inj hit).symm
        refine ⟨?_, ?_, ?_⟩
        · rcases pickLatest_mem xs x with hm | hm
          · rw [hm]
            exact List.mem_cons_self x xs
          · exact List.mem_cons_of_mem x hm
        · intro hnil
          exact hre (by rw [hnil]; rfl)
        · intro j hj
          exact pickLatest_max xs x j hj
  · intro hnone
    rw [get_latest_rate_snapshot] at hnone
    rcases htake : store.take 50 with _ | ⟨x, xs⟩ <;> simp only [htake] at hnone
    · left
      rfl
    · right
      refine ⟨x, xs, rfl, ?_⟩
      by_cases hre : (pickLatest x xs).rates.isEmpty
      · exact List.isEmpty_iff.mp hre
      · rw [if_neg hre] at hnone
        exact Option.noConfusion hnone
  · have hg : get_latest_rate_snapshot env.rateStore = none := by
      rw [hempty]
      rfl
    simp only [perform_conversion, hg]
    rw [if_neg, if_neg, if_neg]
    · rintro (hc | hc)
      · exact hc hlf
      · exact hc hlt
    · rintro (hc | hc)
      · exact hf hc
      · exact ht hc
    · rintro (hc | hc)
      · omega
      · rw [h2] at hc
        exact Bool.false_ne_true hc

/-- C4 witness: the empty-store 503 path at concrete inputs. -/
theorem c4_witness :
    perform_conversion emptyEnv [] "USD" "GBP" "50" (some ⟨50, 0⟩) =
      (.err "No exchange rates available" 503, []) :=
  (c4_theorem demoStore emptyEnv [] "USD" "GBP" "50" ⟨50, 0⟩
    (by decide) (by decide) (by decide) (by decide) (by decide) (by decide)
    rfl).2.2.2

/-! ## Claim C2 — pivot triangulation arithmetic (corrected) -/

/-- C2 counterexample: the claim's premises hold for the positive decimal
amount `0.0049999999999999999999999999996` and the USD rate 1, yet the code
(28-significant-digit context arithmetic) yields 0.01 for USD→EUR while the
claim's exact-decimal arithmetic with one final half-up rounding yields
0.00: Python's decimal context rounds the 29-digit quotient up to
`0.005000...000` before the final quantize. -/
theorem c2_counterexample :
    (0 : ℤ) < cexAmt.c ∧ decLtB ⟨1000000000, 0⟩ cexAmt = false ∧
    (∀ p ∈ ([("USD", (⟨1, 0⟩ : Dec))] : List (String × Dec)), 0 < p.2.c) ∧
    calculate_conversion "USD" "EUR" cexAmt [("USD", ⟨1, 0⟩)] =
      (⟨1, -2⟩, "source_to_eur") ∧
    spec_calculate_exact "USD" "EUR" cexAmt [("USD", ⟨1, 0⟩)] =
      (⟨0, -2⟩, "source_to_eur") ∧
    ¬ decEqv ⟨1, -2⟩ ⟨0, -2⟩ := by
  decide

/-- C2 amended: `calculate_conversion` returns the amount unchanged when
from == to; otherwise it computes amount × rate(to) (from = EUR),
amount ÷ rate(from) (to = EUR), or (amount ÷ rate(from)) × rate(to), in
Python's default decimal context — division and multiplication round to 28
significant digits, half-even — with the final result rounded to 2 decimal
places half-up.  This agrees with the claim's exact-decimal arithmetic
whenever the intermediates fit in 28 significant digits; in particular all
of the spec's scenarios agree, and 50 USD→GBP under {USD: 1.1, GBP: 0.85}
yields exactly 38.64. -/
theorem c2_theorem (fc tc : String) (a : Dec) (rs : List (String × Dec))
    (ha : 0 < a.c) (hr : ∀ p ∈ rs, 0 < p.2.c) :
    (pyUpper fc = pyUpper tc →
      calculate_conversion fc tc a rs = (a, "same_currency")) ∧
    (pyUpper fc ≠ pyUpper tc → pyUpper fc = "EUR" →
      calculate_conversion fc tc a rs =
        (quantize2HU (mulD a (ratesGet rs (pyUpper tc))), "eur_to_target")) ∧
    (pyUpper fc ≠ pyUpper tc → pyUpper fc ≠ "EUR" → pyUpper tc = "EUR" →
      calculate_conversion fc tc a rs =
        (quantize2HU (divD a (ratesGet rs (pyUpper fc))), "source_to_eur")) ∧
    (pyUpper fc ≠ pyUpper tc → pyUpper fc ≠ "EUR" → pyUpper tc ≠ "EUR" →
      calculate_conversion fc tc a rs =
        (quantize2HU (mulD (divD a (ratesGet rs (pyUpper fc)))
          (ratesGet rs (pyUpper tc))), "triangulation")) ∧
    calculate_conversion "USD" "GBP" ⟨50, 0⟩ demoRates =
      (⟨3864, -2⟩, "triangulation") ∧
    spec_calculate_exact "USD" "GBP" ⟨50, 0⟩ demoRates =
      (⟨3864, -2⟩, "triangulation") ∧
    calculate_conversion "USD" "EUR" ⟨100, 0⟩ demoRates =
      (⟨9091, -2⟩, "source_to_eur") ∧
    spec_calculate_exact "USD" "EUR" ⟨100, 0⟩ demoRates =
      (⟨9091, -2⟩, "source_to_eur") ∧
    calculate_conversion "EUR" "GBP" ⟨100, 0⟩ demoRates =
      (⟨8500, -2⟩, "eur_to_target") ∧
    spec_calculate_exact "EUR" "GBP" ⟨100, 0⟩ demoRates =
      (⟨8500, -2⟩, "eur_to_target") := by
  refine ⟨?_, ?_, ?_, ?_, by decide, by decide, by decide, by decide,
    by decide, by decide⟩
  · intro h1
    simp [calculate_conversion, h1]
  · intro h1 h2
    have h4 : ¬("EUR" = pyUpper tc) := fun he => h1 (h2.trans he)
    simp [calculate_conversion, h1, h2, h4]
  · intro h1 h2 h3
    simp [calculate_conversion, h1, h2, h3]
  · intro h1 h2 h3
    simp [calculate_conversion, h1, h2, h3]

/-- C2 witness: the claim's own scenario — 50 USD→GBP is exactly 38.64 by
triangulation. -/
theorem c2_witness :
    calculate_conversion "USD" "GBP" ⟨50, 0⟩ demoRates =
      (⟨3864, -2⟩, "triangulation") :=
  ( c2_theorem "USD" "GBP" ⟨50, 0⟩ demoRates (by decide) (by decide)).2.2.2.2.1

/-! ## Claim C3 — audit round-trip exactness (corrected) -/

/-- C3 counterexample: a successful conversion of the exact decimal amount
`1.00000000000000000001` (USD→USD, so the converted amount equals it)
stores the exact decimal in the audit record, but the response's
`original_amount`/`converted_amount` pass through `float()`, which collapses
the value to exactly 1.0 — the response does not match the stored record. -/
theorem c3_counterexample :
    (perform_conversion okEnv [] "USD" "USD" "1.00000000000000000001"
        (some cexAmt2)).1.respOrig = some (toFloat64 cexAmt2) ∧
    (perform_conversion okEnv [] "USD" "USD" "1.00000000000000000001"
        (some cexAmt2)).1.respConv = some (toFloat64 cexAmt2) ∧
    get_audit_record (perform_conversion okEnv [] "USD" "USD"
        "1.00000000000000000001" (some cexAmt2)).2 "txn1" =
      some ⟨"txn1", "USD", "USD", cexAmt2, cexAmt2, "S1", "T1", "same_currency",
            [("USD", ⟨11, -1⟩), ("USD", ⟨11, -1⟩)]⟩ ∧
    decEqv (toFloat64 cexAmt2) ⟨1, 0⟩ ∧
    ¬ decEqv (toFloat64 cexAmt2) cexAmt2 := by
  decide

/-- C3 amended: for every successful convert call, the returned
`audit_log_transaction_id` resolves via `get_audit_record` to a record
whose `OriginalAmount` and `ConvertedAmount` are exactly the parsed amount
and the computed converted amount (exact decimals); the *response*'s
`original_amount` and `converted_amount`, however, are the `float()`
(binary64) conversions of those decimals, so response and record agree only
up to double-precision rounding. -/
theorem c3_theorem (env : ConvEnv) (audit : List (String × AuditRecord))
    (fc tc raw : String) (a : Dec) (snap : SnapItem)
    (h1 : 0 < a.c) (h2 : decLtB ⟨1000000000, 0⟩ a = false)
    (hf : fc ≠ "") (ht : tc ≠ "")
    (hlf : (pyStrip (pyUpper fc)).length = 3)
    (hlt : (pyStrip (pyUpper tc)).length = 3)
    (hsnap : get_latest_rate_snapshot env.rateStore = some snap)
    (hfok : ¬(pyUpper fc ≠ "EUR" ∧ (snap.rates.lookup (pyUpper fc)).isNone = true))
    (htok : ¬(pyUpper tc ≠ "EUR" ∧ (snap.rates.lookup (pyUpper tc)).isNone = true))
    (haud : env.auditOk = true) :
    let cm := calculate_conversion fc tc a snap.rates
    let record : AuditRecord :=
      ⟨env.txnId, pyUpper fc, pyUpper tc, a, cm.1, snap.id, env.nowIso, cm.2,
       [(pyUpper fc, ratesGet snap.rates (pyUpper fc)),
        (pyUpper tc, ratesGet snap.rates (pyUpper tc))]⟩
    perform_conversion env audit fc tc raw (some a) =
      (.ok (toFloat64 cm.1) snap.id env.txnId (pyUpper fc) (pyUpper tc)
        (toFloat64 a) env.nowIso2, (env.txnId, record) :: audit) ∧
    get_audit_record (perform_conversion env audit fc tc raw (some a)).2
      env.txnId = some record ∧
    record.origAmt = a ∧ record.convAmt = cm.1 := by
  intro cm record
  have e : perform_conversion env audit fc tc raw (some a) =
      (.ok (toFloat64 cm.1) snap.id env.txnId (pyUpper fc) (pyUpper tc)
        (toFloat64 a) env.nowIso2, (env.txnId, record) :: audit) := by
    simp only [perform_conversion, hsnap]
    rw [if_neg, if_neg, if_neg, if_neg hfok, if_neg htok]
    · simp only [create_audit_log, haud, if_true]
      rfl
    · rintro (hc | hc)
      · exact hc hlf
      · exact hc hlt
    · rintro (hc | hc)
      · exact hf hc
      · exact ht hc
    · rintro (hc | hc)
      · omega
      · rw [h2] at hc
        exact Bool.false_ne_true hc
  refine ⟨e, ?_, rfl, rfl⟩
  rw [e]
  simp [get_audit_record, List.lookup]

/-- C3 witness: the 50 USD→GBP conversion succeeds, stores the exact
decimals 50 and 38.64, and responds with their binary64 images. -/
theorem c3_witness :
    perform_conversion okEnv [] "USD" "GBP" "50" (some ⟨50, 0⟩) =
      (.ok (toFloat64 ⟨3864, -2⟩) "S1" "txn1" "USD" "GBP" (toFloat64 ⟨50, 0⟩) "T2",
        [("txn1", ⟨"txn1", "USD", "GBP", ⟨50, 0⟩, ⟨3864, -2⟩, "S1", "T1",
          "triangulation", [("USD", ⟨11, -1⟩), ("GBP", ⟨85, -2⟩)]⟩)]) ∧
    get_audit_record
        (perform_conversion okEnv [] "USD" "GBP" "50" (some ⟨50, 0⟩)).2 "txn1" =
      some ⟨"txn1", "USD", "GBP", ⟨50, 0⟩, ⟨3864, -2⟩, "S1", "T1",
        "triangulation", [("USD", ⟨11, -1⟩), ("GBP", ⟨85, -2⟩)]⟩ := by
  have h := c3_theorem okEnv [] "USD" "GBP" "50" ⟨50, 0⟩
    ⟨"S1", "EUR", some "2025-01-01", demoRates⟩
    (by decide) (by decide) (by decide) (by decide) (by decide) (by decide)
    (by decide) (by decide) (by decide) rfl
  exact ⟨h.1.trans (by decide), h.2.1.trans (by decide)⟩

end RateLock
